import Mathlib

/-!
# credhub-cli: classification of HTTP outcomes and the delete command

A shallow embedding of

* `repositories.DoSendRequest` (`src/repositories/repository.go`), and
* `commands.DeleteCommand.Execute` (`src/commands/delete.go`).

Go values that may be `nil` are `Option`s, a Go result pair `(x, err)` is a
pair of `Option`s, and the effects of a call (the calls made on the HTTP
client, the bodies handed to the JSON decoder, the lines printed) are explicit
components of the value a function returns.
-/

namespace CredhubCli

/-! ## Data model -/

/-- The fields of `*http.Request` that matter to a caller: the source treats the
request as an opaque value that is handed to the client unchanged. -/
structure Request where
  Method : String
  URL : String
  Body : String
  deriving DecidableEq, Repr

/-- The fields of `*http.Response` read by the source: `StatusCode` (a Go `int`,
only compared, never computed with) and `Body` (the text still to be read). -/
structure Response where
  StatusCode : Int
  Body : String
  deriving DecidableEq, Repr

/-- Modelled from the spec: `models.ServerError` is declared outside `src/`; the
spec gives the error envelope as a JSON object with one string member `"error"`,
and the source reads its field `Error` as the message. -/
structure ServerError where
  Error : String
  deriving DecidableEq, Repr

/-- The errors `(*json.Decoder).Decode` of Go's `encoding/json` returns on text:
`io.EOF`, `io.ErrUnexpectedEOF`, `*json.SyntaxError` (the offending character
and the context of its message; the byte offset is not modelled) and
`*json.UnmarshalTypeError` (the kind of JSON value that did not fit). -/
inductive JsonError where
  | EOF
  | ErrUnexpectedEOF
  | SyntaxError (c : Char) (context : String)
  | UnmarshalTypeError (value : String)
  deriving DecidableEq, Repr

/-- Modelled from the spec: `cm_errors.NewNetworkError` and
`cm_errors.NewUnauthorizedError` are declared outside `src/`; the spec names
their results as two kinds of typed failure, neither carrying data, and they are
the constructors `NetworkError` and `UnauthorizedError` of this type of Go
`error` values. The other constructors come from the source: `errorString msg`
is `errors.New(msg)`, `decode e` is an error returned by the JSON decoder and
passed on as it is, and `transport msg` is any error a client's `Do` may
return.

A constructor tells where a value was made, not what Go type it has: values of
different constructors may have the same dynamic type (see
`GoError.dynamicType`), so that two values differ as terms says nothing about
their kinds. -/
inductive GoError where
  | NetworkError
  | UnauthorizedError
  | errorString (msg : String)
  | decode (e : JsonError)
  | transport (msg : String)
  deriving DecidableEq, Repr

/-- The dynamic types of the Go error values whose type the source or Go's
library fixes: `*errors.errorString` (what `errors.New` returns),
`*json.SyntaxError` and `*json.UnmarshalTypeError`. -/
inductive ErrorType where
  | errorString
  | SyntaxError
  | UnmarshalTypeError
  deriving DecidableEq, Repr

/-- The dynamic type of a decoder error. Go declares `io.EOF` as
`errors.New("EOF")` and `io.ErrUnexpectedEOF` as `errors.New("unexpected EOF")`,
so both are `*errors.errorString` values. -/
def JsonError.dynamicType : JsonError → ErrorType
  | .EOF => .errorString
  | .ErrUnexpectedEOF => .errorString
  | .SyntaxError _ _ => .SyntaxError
  | .UnmarshalTypeError _ => .UnmarshalTypeError

/-- The dynamic type of an error value, where it is known: `errors.New(msg)` is
a `*errors.errorString`, a decoder error has the type the decoder gave it, and
the types behind `NetworkError`, `UnauthorizedError` and the errors of `Do` are
fixed outside `src/`. -/
def GoError.dynamicType : GoError → Option ErrorType
  | .errorString _ => some .errorString
  | .decode e => some e.dynamicType
  | .NetworkError => none
  | .UnauthorizedError => none
  | .transport _ => none

/-! ## The JSON decoder

`json.NewDecoder(body).Decode(&serverError)` is Go's `encoding/json`, not code of
this repository. `DoSendRequest` below takes the decoder as an argument, so what
is proved of it holds for every decoder; `jsonDecode` is a model of Go's
decoder on text, used to run the code on concrete bodies. It reads the first
JSON value of the text (what follows that value is left alone) and stores it in
a `ServerError`. -/

/-- A JSON value as read from the text; the text of a number is not kept. -/
inductive JValue where
  | null
  | bool (b : Bool)
  | number
  | string (s : String)
  | array (elems : List JValue)
  | object (members : List (String × JValue))

/-- One unit of a string literal: a character, or the code unit of a `\u`
escape. -/
inductive StrUnit where
  | ch (c : Char)
  | u4 (n : Nat)
  deriving DecidableEq, Repr

/-- What a token is. `bad` is a character that starts no token and `err` a
token that is broken inside (or cut by the end of the text). -/
inductive TokKind where
  | punct
  | str (s : String)
  | num
  | lit (v : JValue)
  | bad
  | err (e : JsonError)

/-- A token with its first character, which is the character a syntax error
names when the token stands where it may not. -/
structure Token where
  first : Char
  kind : TokKind

/-- The states of a numeric literal, as in Go's scanner (`stateNeg`, `state0`,
`state1`, `stateDot`, `stateDot0`, `stateE`, `stateESign`, `stateE0`). -/
inductive NumState where
  | neg | s0 | s1 | dot | dot0 | e | eSign | e0
  deriving DecidableEq, Repr

/-- The states of the tokenizer. `stop` follows a `bad` or `err` token: no
reader gets past one. -/
inductive LexState where
  | start
  | inString (acc : List StrUnit)
  | inStringEsc (acc : List StrUnit)
  | inStringEscU (acc : List StrUnit) (hex : List Nat)
  | number (first : Char) (st : NumState)
  | literal (first : Char) (name : String) (v : JValue) (next : Char) (rest : List Char)
  | stop

/-- Go's `isSpace`: space, tab, carriage return, line feed. -/
def isSpace (c : Char) : Bool :=
  c = ' ' || c = '\t' || c = '\r' || c = '\n'

/-- The value of a hexadecimal digit. -/
def hexVal (c : Char) : Option Nat :=
  if '0' ≤ c ∧ c ≤ '9' then some (c.toNat - 48)
  else if 'a' ≤ c ∧ c ≤ 'f' then some (c.toNat - 87)
  else if 'A' ≤ c ∧ c ≤ 'F' then some (c.toNat - 55)
  else none

/-- Whether a code unit is a UTF-16 surrogate (`utf16.IsSurrogate`). -/
def isSurrogate (n : Nat) : Bool :=
  0xd800 ≤ n && n < 0xe000

/-- The characters of a scanned string literal (Go's `unquote`): a surrogate pair
of `\u` escapes is one character, a lone surrogate is U+FFFD. `high` is a high
surrogate just read, waiting for its low surrogate. -/
def unquote (high : Option Nat) : List StrUnit → List Char
  | [] =>
    match high with
    | none => []
    | some _ => [Char.ofNat 0xfffd]
  | .ch c :: rest =>
    match high with
    | none => c :: unquote none rest
    | some _ => Char.ofNat 0xfffd :: c :: unquote none rest
  | .u4 n :: rest =>
    match high with
    | some h =>
      if 0xdc00 ≤ n ∧ n < 0xe000 then
        Char.ofNat ((h - 0xd800) * 0x400 + (n - 0xdc00) + 0x10000) :: unquote none rest
      else if 0xd800 ≤ n ∧ n < 0xdc00 then Char.ofNat 0xfffd :: unquote (some n) rest
      else Char.ofNat 0xfffd :: Char.ofNat n :: unquote none rest
    | none =>
      if 0xd800 ≤ n ∧ n < 0xdc00 then unquote (some n) rest
      else if isSurrogate n then Char.ofNat 0xfffd :: unquote none rest
      else Char.ofNat n :: unquote none rest

/-- The character a one-letter escape stands for, if it is one. -/
def escapeChar (c : Char) : Option Char :=
  if c = 'b' then some (Char.ofNat 8)
  else if c = 'f' then some (Char.ofNat 12)
  else if c = 'n' then some '\n'
  else if c = 'r' then some '\r'
  else if c = 't' then some '\t'
  else if c = '\\' ∨ c = '/' ∨ c = '"' then some c
  else none

/-- Whether a numeric literal may end in this state. -/
def NumState.complete : NumState → Bool
  | .s0 | .s1 | .dot0 | .e0 => true
  | _ => false

/-- One character inside a numeric literal: the next state, `none` when the
literal cannot go on with `c`. -/
def NumState.next (st : NumState) (c : Char) : Option NumState :=
  match st with
  | .neg => if c = '0' then some .s0 else if '1' ≤ c ∧ c ≤ '9' then some .s1 else none
  | .s1 =>
    if '0' ≤ c ∧ c ≤ '9' then some .s1
    else if c = '.' then some .dot else if c = 'e' ∨ c = 'E' then some .e else none
  | .s0 => if c = '.' then some .dot else if c = 'e' ∨ c = 'E' then some .e else none
  | .dot => if '0' ≤ c ∧ c ≤ '9' then some .dot0 else none
  | .dot0 =>
    if '0' ≤ c ∧ c ≤ '9' then some .dot0 else if c = 'e' ∨ c = 'E' then some .e else none
  | .e => if c = '+' ∨ c = '-' then some .eSign else if '0' ≤ c ∧ c ≤ '9' then some .e0 else none
  | .eSign => if '0' ≤ c ∧ c ≤ '9' then some .e0 else none
  | .e0 => if '0' ≤ c ∧ c ≤ '9' then some .e0 else none

/-- The context of the syntax error for a character that cannot continue an
unfinished numeric literal. -/
def NumState.context : NumState → String
  | .dot => "after decimal point in numeric literal"
  | .e | .eSign => "in exponent of numeric literal"
  | _ => "in numeric literal"

/-- A character met between tokens: the token it makes (if any) and the state
after it. -/
def lexStart (c : Char) : List Token × LexState :=
  if isSpace c then ([], .start)
  else if c = '{' ∨ c = '}' ∨ c = '[' ∨ c = ']' ∨ c = ':' ∨ c = ',' then
    ([⟨c, .punct⟩], .start)
  else if c = '"' then ([], .inString [])
  else if c = '-' then ([], .number c .neg)
  else if c = '0' then ([], .number c .s0)
  else if '1' ≤ c ∧ c ≤ '9' then ([], .number c .s1)
  else if c = 't' then ([], .literal c "true" (.bool true) 'r' ['u', 'e'])
  else if c = 'f' then ([], .literal c "false" (.bool false) 'a' ['l', 's', 'e'])
  else if c = 'n' then ([], .literal c "null" .null 'u' ['l', 'l'])
  else ([⟨c, .bad⟩], .stop)

/-- One character of the text: the tokens it completes and the state after
it. A character that ends a numeric literal is then read as a character between
tokens. -/
def lexStep (st : LexState) (c : Char) : List Token × LexState :=
  match st with
  | .stop => ([], .stop)
  | .start => lexStart c
  | .inString acc =>
    if c = '"' then ([⟨'"', .str (String.mk (unquote none acc))⟩], .start)
    else if c = '\\' then ([], .inStringEsc acc)
    else if c.toNat < 0x20 then ([⟨'"', .err (.SyntaxError c "in string literal")⟩], .stop)
    else ([], .inString (acc ++ [.ch c]))
  | .inStringEsc acc =>
    if c = 'u' then ([], .inStringEscU acc [])
    else
      match escapeChar c with
      | some d => ([], .inString (acc ++ [.ch d]))
      | none => ([⟨'"', .err (.SyntaxError c "in string escape code")⟩], .stop)
  | .inStringEscU acc hex =>
    match hexVal c with
    | none => ([⟨'"', .err (.SyntaxError c "in \\u hexadecimal character escape")⟩], .stop)
    | some d =>
      match hex with
      | [h1, h2, h3] => ([], .inString (acc ++ [.u4 (((h1 * 16 + h2) * 16 + h3) * 16 + d)]))
      | _ => ([], .inStringEscU acc (hex ++ [d]))
  | .number first ns =>
    match ns.next c with
    | some ns2 => ([], .number first ns2)
    | none =>
      if ns.complete then
        let r := lexStart c
        (⟨first, .num⟩ :: r.1, r.2)
      else ([⟨first, .err (.SyntaxError c ns.context)⟩], .stop)
  | .literal first name v next rest =>
    if c = next then
      match rest with
      | [] => ([⟨first, .lit v⟩], .start)
      | y :: ys => ([], .literal first name v y ys)
    else
      ([⟨first, .err (.SyntaxError c
        ("in literal " ++ name ++ " (expecting '" ++ String.singleton next ++ "')"))⟩], .stop)

/-- The tokens at the end of the text: a numeric literal that may end there, or
the unexpected end of an unfinished token. -/
def lexEnd : LexState → List Token
  | .start | .stop => []
  | .inString _ | .inStringEsc _ | .inStringEscU _ _ => [⟨'"', .err .ErrUnexpectedEOF⟩]
  | .number first ns =>
    if ns.complete then [⟨first, .num⟩] else [⟨first, .err .ErrUnexpectedEOF⟩]
  | .literal first _ _ _ _ => [⟨first, .err .ErrUnexpectedEOF⟩]

/-- The tokens of a text, up to the first broken one. -/
def lex : LexState → List Char → List Token
  | st, [] => lexEnd st
  | st, c :: cs => (lexStep st c).1 ++ lex (lexStep st c).2 cs

/-- The containers being read, as in the scanner's parse stack (`parseObjectKey`,
`parseObjectValue`, `parseArrayValue`), each with what it holds so far. -/
inductive Frame where
  | objectKey (members : List (String × JValue))
  | objectValue (members : List (String × JValue)) (key : String)
  | arrayValue (elems : List JValue)

/-- What the reader expects next, as in the scanner's step functions
(`stateBeginValue`, `stateBeginValueOrEmpty`, `stateBeginStringOrEmpty`,
`stateBeginString`, `stateEndValue`); `endValue v` holds the value just read. -/
inductive Mode where
  | beginValue
  | beginValueOrEmpty
  | beginStringOrEmpty
  | beginString
  | endValue (v : JValue)

/-- The string of a value that is one (an object key always is). -/
def JValue.keyText : JValue → String
  | .string s => s
  | _ => ""

/-- A token where a value must begin. -/
def beginValueStep (stack : List Frame) (t : Token) : Except JsonError (List Frame × Mode) :=
  match t.kind with
  | .punct =>
    if t.first = '{' then .ok (.objectKey [] :: stack, .beginStringOrEmpty)
    else if t.first = '[' then .ok (.arrayValue [] :: stack, .beginValueOrEmpty)
    else .error (.SyntaxError t.first "looking for beginning of value")
  | .str s => .ok (stack, .endValue (.string s))
  | .num => .ok (stack, .endValue .number)
  | .lit v => .ok (stack, .endValue v)
  | .bad => .error (.SyntaxError t.first "looking for beginning of value")
  | .err e => .error e

/-- A token where an object key must begin. -/
def beginStringStep (stack : List Frame) (t : Token) : Except JsonError (List Frame × Mode) :=
  match t.kind with
  | .str s => .ok (stack, .endValue (.string s))
  | .err e =>
    if t.first = '"' then .error e
    else .error (.SyntaxError t.first "looking for beginning of object key string")
  | _ => .error (.SyntaxError t.first "looking for beginning of object key string")

/-- A token after a value `v` inside a container (`stateEndValue`). -/
def endValueStep (stack : List Frame) (v : JValue) (t : Token) :
    Except JsonError (List Frame × Mode) :=
  match stack with
  | [] => .ok ([], .endValue v)
  | .objectKey members :: rest =>
    if t.first = ':' then .ok (.objectValue members v.keyText :: rest, .beginValue)
    else .error (.SyntaxError t.first "after object key")
  | .objectValue members key :: rest =>
    if t.first = ',' then .ok (.objectKey (members ++ [(key, v)]) :: rest, .beginString)
    else if t.first = '}' then .ok (rest, .endValue (.object (members ++ [(key, v)])))
    else .error (.SyntaxError t.first "after object key:value pair")
  | .arrayValue elems :: rest =>
    if t.first = ',' then .ok (.arrayValue (elems ++ [v]) :: rest, .beginValue)
    else if t.first = ']' then .ok (rest, .endValue (.array (elems ++ [v])))
    else .error (.SyntaxError t.first "after array element")

/-- One token of the value being read. -/
def parseStep (stack : List Frame) (mode : Mode) (t : Token) :
    Except JsonError (List Frame × Mode) :=
  match mode with
  | .beginValue => beginValueStep stack t
  | .beginValueOrEmpty =>
    if t.first = ']' then
      match stack with
      | .arrayValue elems :: rest => .ok (rest, .endValue (.array elems))
      | _ => beginValueStep stack t
    else beginValueStep stack t
  | .beginStringOrEmpty =>
    if t.first = '}' then
      match stack with
      | .objectKey members :: rest => .ok (rest, .endValue (.object members))
      | _ => beginStringStep stack t
    else beginStringStep stack t
  | .beginString => beginStringStep stack t
  | .endValue v => endValueStep stack v t

/-- Reads tokens until one value is complete; the tokens after it are not
looked at. Running out of tokens before that is `io.ErrUnexpectedEOF`. -/
def parse : List Frame → Mode → List Token → Except JsonError JValue
  | [], .endValue v, _ => .ok v
  | _, _, [] => .error .ErrUnexpectedEOF
  | stack, mode, t :: ts =>
    match parseStep stack mode t with
    | .error e => .error e
    | .ok next => parse next.1 next.2 ts

/-- The first JSON value of a text (the decoder's `readValue`): `io.EOF` when
the text holds nothing but white space. -/
def readValue (text : String) : Except JsonError JValue :=
  match lex .start text.toList with
  | [] => .error .EOF
  | t :: ts => parse [] .beginValue (t :: ts)

/-- Whether an object key names the field `Error` of `ServerError` (JSON name
`error`): Go matches the name exactly or, failing that, without regard to the
case of its letters. -/
def matchesErrorField (key : String) : Bool :=
  key.toList.map Char.toLower = "error".toList

/-- Stores the members of an object in a `ServerError`, in order. A string goes
to its field, `null` leaves it, and any other value for the field is an
`UnmarshalTypeError`, of which the first is kept while the rest of the object is
still read; members with another key are skipped. -/
def storeMembers : List (String × JValue) → ServerError → Option JsonError →
    ServerError × Option JsonError
  | [], into, saved => (into, saved)
  | (key, v) :: rest, into, saved =>
    if matchesErrorField key then
      match v with
      | .string s => storeMembers rest { into with Error := s } saved
      | .null => storeMembers rest into saved
      | .bool _ => storeMembers rest into (saved.orElse fun _ => some (.UnmarshalTypeError "bool"))
      | .number =>
        storeMembers rest into (saved.orElse fun _ => some (.UnmarshalTypeError "number"))
      | .array _ =>
        storeMembers rest into (saved.orElse fun _ => some (.UnmarshalTypeError "array"))
      | .object _ =>
        storeMembers rest into (saved.orElse fun _ => some (.UnmarshalTypeError "object"))
    else storeMembers rest into saved

/-- Stores a JSON value in a `ServerError` (the decoder's `unmarshal` into a
struct): an object member by member, `null` changes nothing, and a value of any
other kind is an `UnmarshalTypeError`. -/
def unmarshal (v : JValue) (into : ServerError) : Except JsonError ServerError :=
  match v with
  | .object members =>
    match storeMembers members into none with
    | (_, some e) => .error e
    | (stored, none) => .ok stored
  | .null => .ok into
  | .bool _ => .error (.UnmarshalTypeError "bool")
  | .number => .error (.UnmarshalTypeError "number")
  | .string _ => .error (.UnmarshalTypeError "string")
  | .array _ => .error (.UnmarshalTypeError "array")

/-- A model of `json.NewDecoder(body).Decode(&into)` for `into` a `ServerError`. -/
def jsonDecode (body : String) (into : ServerError) : Except JsonError ServerError :=
  match readValue body with
  | .error e => .error e
  | .ok v => unmarshal v into

/-- The type of a decoder of error envelopes: the body text and the value to
fill (the source passes the zero value `models.ServerError` with empty
`Error`), to the filled value or the decoder's error. -/
abbrev Decoder := String → ServerError → Except JsonError ServerError

/-! ## `repositories.DoSendRequest` -/

/-- The result pair `(response, err)` of `HttpClient.Do`. -/
structure DoResult where
  response : Option Response
  err : Option GoError
  deriving DecidableEq, Repr

/-- Modelled from the spec: the interface `client.HttpClient` is declared outside
`src/`, and the source calls only its method `Do`. A client is what it answers to
its first, second, ... call of `Do` (the attempts of the spec, numbered from 0),
together with the number of calls made so far. -/
structure HttpClient where
  answers : Nat → Request → DoResult
  calls : Nat

/-- One call `httpClient.Do(request)`: the answer to this attempt and the client
after the call. -/
def HttpClient.Do (httpClient : HttpClient) (request : Request) : DoResult × HttpClient :=
  (httpClient.answers httpClient.calls request,
    { httpClient with calls := httpClient.calls + 1 })

/-- What a call of `DoSendRequest` does besides returning: calls of the client's
`Do`, and bodies handed to the JSON decoder (which reads them). -/
inductive Event where
  | Do (request : Request)
  | Decode (body : String)
  deriving DecidableEq, Repr

/-- How a call of `DoSendRequest` ends: it returns the Go pair
`(response, err)`, or it panics on `response.StatusCode` when the client
returned a nil response with a nil error. -/
inductive Outcome where
  | returned (response : Option Response) (err : Option GoError)
  | nilDereference
  deriving DecidableEq, Repr

/-- A finished call of `DoSendRequest`: how it ended, the client after it, and
what it did, in order. -/
structure Run where
  outcome : Outcome
  httpClient : HttpClient
  trace : List Event

/-- The function `DoSendRequest` of `repositories/repository.go`. -/
def DoSendRequest (decode : Decoder) (httpClient : HttpClient) (request : Request) : Run :=
  let sent := httpClient.Do request
  let response := sent.1.response
  let err := sent.1.err
  match err with
  | some _ => ⟨.returned none (some .NetworkError), sent.2, [.Do request]⟩
  | none =>
    match response with
    | none => ⟨.nilDereference, sent.2, [.Do request]⟩
    | some response =>
      if response.StatusCode < 200 ∨ response.StatusCode > 299 then
        let serverError : ServerError := { Error := "" }
        match decode response.Body serverError with
        | .error err =>
          ⟨.returned none (some (.decode err)), sent.2, [.Do request, .Decode response.Body]⟩
        | .ok serverError =>
          if response.StatusCode = 401 then
            ⟨.returned none (some .UnauthorizedError), sent.2,
              [.Do request, .Decode response.Body]⟩
          else
            ⟨.returned none (some (.errorString serverError.Error)), sent.2,
              [.Do request, .Decode response.Body]⟩
      else ⟨.returned (some response) none, sent.2, [.Do request]⟩

/-- A client that gives the same answer to every call, like the `DummyAuth` of
`credhub/set_test.go` with its canned `Response` and `Error`. -/
def cannedClient (answer : DoResult) : HttpClient :=
  { answers := fun _ _ => answer, calls := 0 }

/-- A client that answers its first call with `first` and every later call with
`later`. -/
def scriptedClient (first later : DoResult) : HttpClient :=
  { answers := fun attempt _ => if attempt = 0 then first else later, calls := 0 }

/-- The request of `SetPassword` in `credhub/set_test.go`. -/
def putPassword : Request :=
  { Method := "PUT", URL := "https://example.com/api/v1/data",
    Body := "\x7b\"name\":\"/example-password\",\"type\":\"password\"," ++
      "\"value\":\"some-password\",\"overwrite\":false\x7d" }

/-- A request to delete the credential `/example-password`. -/
def deleteSecret : Request :=
  { Method := "DELETE", URL := "https://example.com/api/v1/data?name=/example-password",
    Body := "" }

/-- The body of the successful response to `SetPassword` in
`credhub/set_test.go`. -/
def passwordBody : String :=
  "\x7b\"id\":\"some-id\",\"name\":\"/example-password\",\"type\":\"password\"," ++
    "\"value\":\"some-password\",\"version_created_at\":\"2017-01-01T04:07:18Z\"\x7d"

/-- Whether an event is a call of the client's `Do`. -/
def Event.isDo : Event → Bool
  | .Do _ => true
  | .Decode _ => false

/-! ## `commands.DeleteCommand.Execute` -/

/-- The world a command runs in: the lines written to standard output, and
everything else (configuration files, the network, ...). -/
structure World (ω : Type) where
  stdout : List String
  rest : ω

/-- The call `fmt.Println(line)`. -/
def World.Println {ω : Type} (w : World ω) (line : String) : World ω :=
  { w with stdout := w.stdout ++ [line ++ "\n"] }

/-- Modelled from the spec: `config.ReadConfig`, `client.NewHttpClient`,
`repositories.NewSecretRepository`, `actions.NewAction`, `Action.DoAction` and
`client.NewDeleteSecretRequest` are declared outside `src/`. `Execute` takes
them as arguments; each may read and change the world in any way, and `DoAction`
returns the Go pair of an item and an error. -/
structure Collaborators (ω Config Client Repository Action Item : Type) where
  ReadConfig : World ω → Config × World ω
  NewHttpClient : Config → World ω → Client × World ω
  NewSecretRepository : Client → World ω → Repository × World ω
  NewAction : Repository → Config → World ω → Action × World ω
  NewDeleteSecretRequest : Config → String → World ω → Request × World ω
  DoAction : Action → Request → String → World ω → (Item × Option GoError) × World ω

/-- The struct `DeleteCommand` of `commands/delete.go`. -/
structure DeleteCommand where
  SecretIdentifier : String
  deriving DecidableEq, Repr

/-- The method `DeleteCommand.Execute` of `commands/delete.go`: the returned
error and the world after the call. The argument list is not used. -/
def DeleteCommand.Execute {ω Config Client Repository Action Item : Type}
    (deps : Collaborators ω Config Client Repository Action Item)
    (cmd : DeleteCommand) (_args : List String) (w : World ω) : Option GoError × World ω :=
  let cfg := deps.ReadConfig w
  let httpClient := deps.NewHttpClient cfg.1 cfg.2
  let repository := deps.NewSecretRepository httpClient.1 httpClient.2
  let action := deps.NewAction repository.1 cfg.1 repository.2
  let request := deps.NewDeleteSecretRequest cfg.1 cmd.SecretIdentifier action.2
  let done := deps.DoAction action.1 request.1 cmd.SecretIdentifier request.2
  let err := done.1.2
  match err with
  | none => (err, done.2.Println "Secret successfully deleted")
  | some _ => (err, done.2)

/-- Collaborators for running `Execute` on a concrete input, in the manner of the
doubles of `credhub/set_test.go`: the configuration is the URL of the server,
the request is the `DELETE` of the spec, and `DoAction` logs the request it is
given and the identifier, and ends with the error `failure` (nil or not). -/
def dummyCollaborators (failure : Option GoError) :
    Collaborators (List (Request × String)) String String String String String where
  ReadConfig := fun w => ("https://example.com", w)
  NewHttpClient := fun cfg w => (cfg, w)
  NewSecretRepository := fun httpClient w => (httpClient, w)
  NewAction := fun repository _ w => (repository, w)
  NewDeleteSecretRequest := fun cfg identifier w =>
    (⟨"DELETE", cfg ++ "/api/v1/data?name=" ++ identifier, ""⟩, w)
  DoAction := fun _ request identifier w =>
    (("", failure), { w with rest := w.rest ++ [(request, identifier)] })

/-! ## Theorems about `DoSendRequest` -/

/-- Every call of `DoSendRequest` calls the client's `Do` once, first of all,
whatever the decoder and the answers of the client. -/
theorem DoSendRequest_calls (decode : Decoder) (httpClient : HttpClient) (request : Request) :
    (DoSendRequest decode httpClient request).httpClient.calls = httpClient.calls + 1 ∧
    (DoSendRequest decode httpClient request).trace.head? = some (.Do request) ∧
    ((DoSendRequest decode httpClient request).trace.filter Event.isDo).length = 1 := by
  unfold DoSendRequest
  simp only [HttpClient.Do]
  split
  · simp [Event.isDo]
  · split
    · simp [Event.isDo]
    · split
      · split
        · simp [Event.isDo]
        · split <;> simp [Event.isDo]
      · simp [Event.isDo]

/-- When `Do` returns a nil response with a nil error, `DoSendRequest` does not
return: reading `response.StatusCode` dereferences nil. -/
theorem DoSendRequest_nil_response (decode : Decoder) (httpClient : HttpClient)
    (request : Request) (hDo : (httpClient.Do request).1 = ⟨none, none⟩) :
    (DoSendRequest decode httpClient request).outcome = .nilDereference := by
  simp [DoSendRequest, hDo]

/-- C1: when the client's `Do` fails, with any error `e` (and whatever response
comes with it), `DoSendRequest` returns a nil response and `NetworkError`, a
value in which `e` does not occur, and the only thing it did is the one call of
`Do`: no body is handed to the decoder, and the decoder makes no difference. -/
theorem DoSendRequest_transport_error (decode : Decoder) (httpClient : HttpClient)
    (request : Request) (e : GoError)
    (hErr : (httpClient.Do request).1.err = some e) :
    (DoSendRequest decode httpClient request).outcome = .returned none (some .NetworkError) ∧
    (DoSendRequest decode httpClient request).trace = [.Do request] ∧
    (∀ body, Event.Decode body ∉ (DoSendRequest decode httpClient request).trace) ∧
    (∀ decode2 : Decoder, (DoSendRequest decode2 httpClient request).outcome =
      (DoSendRequest decode httpClient request).outcome) := by
  simp [DoSendRequest, hErr]

/-- C2: when `Do` succeeds with a response whose status code is in [200, 299],
`DoSendRequest` returns that very response (status and unread body) with a nil
error, and hands no body to the decoder. -/
theorem DoSendRequest_success (decode : Decoder) (httpClient : HttpClient)
    (request : Request) (response : Response)
    (hDo : (httpClient.Do request).1 = ⟨some response, none⟩)
    (hLow : 200 ≤ response.StatusCode) (hHigh : response.StatusCode ≤ 299) :
    (DoSendRequest decode httpClient request).outcome = .returned (some response) none ∧
    (DoSendRequest decode httpClient request).trace = [.Do request] ∧
    (∀ body, Event.Decode body ∉ (DoSendRequest decode httpClient request).trace) := by
  have hNot : ¬ (response.StatusCode < 200 ∨ response.StatusCode > 299) := by omega
  simp [DoSendRequest, hDo, hNot]

/-- C3, as amended: for a completed response with status code 401 whose body the
decoder accepts, `DoSendRequest` returns a nil response and `UnauthorizedError`,
whatever the decoded message; the body is handed to the decoder before the 401
rule applies. -/
theorem DoSendRequest_unauthorized (decode : Decoder) (httpClient : HttpClient)
    (request : Request) (response : Response) (serverError : ServerError)
    (hDo : (httpClient.Do request).1 = ⟨some response, none⟩)
    (hStatus : response.StatusCode = 401)
    (hDecode : decode response.Body { Error := "" } = .ok serverError) :
    (DoSendRequest decode httpClient request).outcome =
      .returned none (some .UnauthorizedError) ∧
    (DoSendRequest decode httpClient request).trace =
      [.Do request, .Decode response.Body] := by
  simp [DoSendRequest, hDo, hStatus, hDecode]

/-- C4: for a completed response whose status code is outside [200, 299] and is
not 401, and whose body decodes as an error envelope with message `msg`,
`DoSendRequest` returns a nil response and the error `errors.New(msg)`, whose
message is `msg` itself, for every `msg`. -/
theorem DoSendRequest_server_error (decode : Decoder) (httpClient : HttpClient)
    (request : Request) (response : Response) (msg : String)
    (hDo : (httpClient.Do request).1 = ⟨some response, none⟩)
    (hStatus : response.StatusCode < 200 ∨ response.StatusCode > 299)
    (hNot401 : response.StatusCode ≠ 401)
    (hDecode : decode response.Body { Error := "" } = .ok { Error := msg }) :
    (DoSendRequest decode httpClient request).outcome =
      .returned none (some (.errorString msg)) := by
  simp [DoSendRequest, hDo, hStatus, hNot401, hDecode]

/-- C5, as amended: for a completed response whose status code is outside
[200, 299] and is not 401, and whose body the decoder rejects with error `e`,
`DoSendRequest` returns a nil response and `e` itself, the error the decoder
returned for that body, with nothing around it. -/
theorem DoSendRequest_decode_error (decode : Decoder) (httpClient : HttpClient)
    (request : Request) (response : Response) (e : JsonError)
    (hDo : (httpClient.Do request).1 = ⟨some response, none⟩)
    (hStatus : response.StatusCode < 200 ∨ response.StatusCode > 299)
    (_hNot401 : response.StatusCode ≠ 401)
    (hDecode : decode response.Body { Error := "" } = .error e) :
    (DoSendRequest decode httpClient request).outcome = .returned none (some (.decode e)) ∧
    (DoSendRequest decode httpClient request).trace =
      [.Do request, .Decode response.Body] := by
  simp [DoSendRequest, hDo, hStatus, hDecode]

/-- C6: for every completed response whose status code is below 200 or above
299, every body and every decoder, `DoSendRequest` returns a nil response and a
non-nil error. -/
theorem DoSendRequest_non2xx_is_error (decode : Decoder) (httpClient : HttpClient)
    (request : Request) (response : Response)
    (hDo : (httpClient.Do request).1 = ⟨some response, none⟩)
    (hStatus : response.StatusCode < 200 ∨ response.StatusCode > 299) :
    ∃ err : GoError,
      (DoSendRequest decode httpClient request).outcome = .returned none (some err) := by
  simp only [DoSendRequest, hDo, hStatus]
  cases hd : decode response.Body { Error := "" } with
  | error e => exact ⟨_, rfl⟩
  | ok serverError =>
    by_cases h401 : response.StatusCode = 401
    · exact ⟨.UnauthorizedError, by simp [h401]⟩
    · exact ⟨.errorString serverError.Error, by simp [h401]⟩

/-- C7, as amended: `DoSendRequest` makes one attempt and no refresh or retry.
When the client answers this attempt with a 401 response whose body the decoder
accepts, `DoSendRequest` returns a nil response and `UnauthorizedError` after
exactly one call of `Do`, whatever the client would answer to later attempts. -/
theorem DoSendRequest_single_attempt (decode : Decoder) (httpClient : HttpClient)
    (request : Request) (response : Response) (serverError : ServerError)
    (hFirst : httpClient.answers httpClient.calls request = ⟨some response, none⟩)
    (hStatus : response.StatusCode = 401)
    (hDecode : decode response.Body { Error := "" } = .ok serverError) :
    (DoSendRequest decode httpClient request).outcome =
      .returned none (some .UnauthorizedError) ∧
    (DoSendRequest decode httpClient request).httpClient.calls = httpClient.calls + 1 ∧
    ((DoSendRequest decode httpClient request).trace.filter Event.isDo).length = 1 := by
  refine ⟨?_, (DoSendRequest_calls decode httpClient request).1,
    (DoSendRequest_calls decode httpClient request).2.2⟩
  simp [DoSendRequest, HttpClient.Do, hFirst, hStatus, hDecode]

/-- C8, as amended: for every client and request, one call of `DoSendRequest`
calls the client's `Do` exactly once, hence at most twice; and when every
attempt is answered with the same 401 response, whose body the decoder accepts,
the call ends with `UnauthorizedError`. -/
theorem DoSendRequest_no_retry (decode : Decoder) (httpClient : HttpClient)
    (request : Request) :
    (DoSendRequest decode httpClient request).httpClient.calls = httpClient.calls + 1 ∧
    ((DoSendRequest decode httpClient request).trace.filter Event.isDo).length = 1 ∧
    (DoSendRequest decode httpClient request).httpClient.calls ≤ httpClient.calls + 2 ∧
    ((DoSendRequest decode httpClient request).trace.filter Event.isDo).length ≤ 2 ∧
    ∀ (response : Response) (serverError : ServerError),
      (∀ attempt, httpClient.answers attempt request = ⟨some response, none⟩) →
      response.StatusCode = 401 →
      decode response.Body { Error := "" } = .ok serverError →
      (DoSendRequest decode httpClient request).outcome =
        .returned none (some .UnauthorizedError) := by
  have hCalls := DoSendRequest_calls decode httpClient request
  refine ⟨hCalls.1, hCalls.2.2, by omega, by omega, ?_⟩
  intro response serverError hAll hStatus hDecode
  simp [DoSendRequest, HttpClient.Do, hAll, hStatus, hDecode]

/-- C9: for every answer of the client that is a transport error or a completed
response, `DoSendRequest` returns exactly one of a response and an error (never
both, never neither), and it returns a response if and only if `Do` gave a nil
error and a response with status code in [200, 299]. -/
theorem DoSendRequest_exactly_one (decode : Decoder) (httpClient : HttpClient)
    (request : Request)
    (hAnswer : (httpClient.Do request).1.err ≠ none ∨
      (httpClient.Do request).1.response ≠ none) :
    ∃ (response : Option Response) (err : Option GoError),
      (DoSendRequest decode httpClient request).outcome = .returned response err ∧
      (response = none ↔ err ≠ none) ∧
      (response ≠ none ↔
        ((httpClient.Do request).1.err = none ∧
          ∃ r, (httpClient.Do request).1.response = some r ∧
            200 ≤ r.StatusCode ∧ r.StatusCode ≤ 299)) := by
  unfold DoSendRequest
  cases hErr : (httpClient.Do request).1.err with
  | some e => exact ⟨none, some .NetworkError, by simp [hErr]⟩
  | none =>
    cases hResp : (httpClient.Do request).1.response with
    | none => simp [hErr, hResp] at hAnswer
    | some r =>
      by_cases hStatus : r.StatusCode < 200 ∨ r.StatusCode > 299
      · have hOut : ¬ (200 ≤ r.StatusCode ∧ r.StatusCode ≤ 299) := by omega
        cases hd : decode r.Body { Error := "" } with
        | error e => exact ⟨none, some (.decode e), by simp [hErr, hResp, hStatus, hd, hOut]⟩
        | ok serverError =>
          by_cases h401 : r.StatusCode = 401
          · exact ⟨none, some .UnauthorizedError, by simp [hErr, hResp, hStatus, hd, h401]⟩
          · exact ⟨none, some (.errorString serverError.Error),
              by simp [hErr, hResp, hStatus, hd, h401, hOut]⟩
      · have hIn : 200 ≤ r.StatusCode ∧ r.StatusCode ≤ 299 := by omega
        exact ⟨some r, none, by simp [hErr, hResp, hStatus, hIn]⟩

/-! ## Theorems about `DeleteCommand.Execute` -/

/-- C10: with `err` the error of `DoAction` on the delete request built for
`SecretIdentifier` and on `SecretIdentifier` itself, `Execute` returns exactly
`err`; it prints the line "Secret successfully deleted" after the action if and
only if `err` is nil, and on failure leaves the world as the action left it. -/
theorem DeleteCommand.Execute_surfaces_error {ω Config Client Repository Action Item : Type}
    (deps : Collaborators ω Config Client Repository Action Item)
    (cmd : DeleteCommand) (args : List String) (w w1 w2 w3 w4 w5 w6 : World ω)
    (cfg : Config) (httpClient : Client) (repository : Repository) (action : Action)
    (request : Request) (item : Item) (err : Option GoError)
    (hConfig : deps.ReadConfig w = (cfg, w1))
    (hClient : deps.NewHttpClient cfg w1 = (httpClient, w2))
    (hRepository : deps.NewSecretRepository httpClient w2 = (repository, w3))
    (hAction : deps.NewAction repository cfg w3 = (action, w4))
    (hRequest : deps.NewDeleteSecretRequest cfg cmd.SecretIdentifier w4 = (request, w5))
    (hDone : deps.DoAction action request cmd.SecretIdentifier w5 = ((item, err), w6)) :
    (cmd.Execute deps args w).1 = err ∧
    ((cmd.Execute deps args w).2.stdout = w6.stdout ++ ["Secret successfully deleted\n"] ↔
      err = none) ∧
    (err = none → (cmd.Execute deps args w).2 = w6.Println "Secret successfully deleted") ∧
    (err ≠ none → (cmd.Execute deps args w).2 = w6) := by
  cases err with
  | none =>
    simp [DeleteCommand.Execute, hConfig, hClient, hRepository, hAction, hRequest, hDone,
      World.Println]
  | some e =>
    simp [DeleteCommand.Execute, hConfig, hClient, hRepository, hAction, hRequest, hDone]

/-! ## The theorems at concrete inputs -/

/-- C1 at the failing client of `credhub/set_test.go` ("Network error
occurred"). -/
theorem DoSendRequest_transport_error_witness :
    ((cannedClient ⟨none, some (.transport "Network error occurred")⟩).Do putPassword).1.err =
      some (.transport "Network error occurred") ∧
    (DoSendRequest jsonDecode (cannedClient ⟨none, some (.transport "Network error occurred")⟩)
      putPassword).outcome = .returned none (some .NetworkError) :=
  ⟨rfl, (DoSendRequest_transport_error jsonDecode
    (cannedClient ⟨none, some (.transport "Network error occurred")⟩) putPassword
    (.transport "Network error occurred") rfl).1⟩

/-- C2 at a 200 response with the password body of the tests, and at a 204
response with an empty body. -/
theorem DoSendRequest_success_witness :
    (200 : Int) ≤ 200 ∧ (200 : Int) ≤ 299 ∧
    (DoSendRequest jsonDecode (cannedClient ⟨some ⟨200, passwordBody⟩, none⟩)
      putPassword).outcome = .returned (some ⟨200, passwordBody⟩) none ∧
    (200 : Int) ≤ 204 ∧ (204 : Int) ≤ 299 ∧
    (DoSendRequest jsonDecode (cannedClient ⟨some ⟨204, ""⟩, none⟩)
      deleteSecret).outcome = .returned (some ⟨204, ""⟩) none :=
  ⟨by decide, by decide, (DoSendRequest_success jsonDecode
    (cannedClient ⟨some ⟨200, passwordBody⟩, none⟩) putPassword ⟨200, passwordBody⟩ rfl
    (by decide) (by decide)).1,
    by decide, by decide, (DoSendRequest_success jsonDecode
    (cannedClient ⟨some ⟨204, ""⟩, none⟩) deleteSecret ⟨204, ""⟩ rfl
    (by decide) (by decide)).1⟩

/-- C3 as stated fails: a 401 response with an empty body ends with the
decoder's `io.EOF`, not with `UnauthorizedError`. -/
theorem DoSendRequest_unauthorized_counterexample :
    (DoSendRequest jsonDecode (cannedClient ⟨some ⟨401, ""⟩, none⟩) putPassword).outcome =
      .returned none (some (.decode .EOF)) ∧
    (DoSendRequest jsonDecode (cannedClient ⟨some ⟨401, ""⟩, none⟩) putPassword).outcome ≠
      .returned none (some .UnauthorizedError) := by
  decide

/-- C3, as amended, at a 401 response with an error envelope. -/
theorem DoSendRequest_unauthorized_witness :
    jsonDecode "\x7b\"error\":\"token expired\"\x7d" { Error := "" } =
      .ok { Error := "token expired" } ∧
    (DoSendRequest jsonDecode
      (cannedClient ⟨some ⟨401, "\x7b\"error\":\"token expired\"\x7d"⟩, none⟩)
      putPassword).outcome = .returned none (some .UnauthorizedError) :=
  ⟨rfl, (DoSendRequest_unauthorized jsonDecode
    (cannedClient ⟨some ⟨401, "\x7b\"error\":\"token expired\"\x7d"⟩, none⟩) putPassword
    ⟨401, "\x7b\"error\":\"token expired\"\x7d"⟩ ⟨"token expired"⟩ rfl rfl rfl).1⟩

/-- C4 at a 500 response with the envelope of message "boom", and at a 404
response with the envelope of the empty message. -/
theorem DoSendRequest_server_error_witness :
    ((500 : Int) < 200 ∨ (500 : Int) > 299) ∧ (500 : Int) ≠ 401 ∧
    jsonDecode "\x7b\"error\":\"boom\"\x7d" { Error := "" } = .ok { Error := "boom" } ∧
    (DoSendRequest jsonDecode (cannedClient ⟨some ⟨500, "\x7b\"error\":\"boom\"\x7d"⟩, none⟩)
      putPassword).outcome = .returned none (some (.errorString "boom")) ∧
    ((404 : Int) < 200 ∨ (404 : Int) > 299) ∧ (404 : Int) ≠ 401 ∧
    jsonDecode "\x7b\"error\":\"\"\x7d" { Error := "" } = .ok { Error := "" } ∧
    (DoSendRequest jsonDecode (cannedClient ⟨some ⟨404, "\x7b\"error\":\"\"\x7d"⟩, none⟩)
      deleteSecret).outcome = .returned none (some (.errorString "")) :=
  ⟨by decide, by decide, rfl, DoSendRequest_server_error jsonDecode
    (cannedClient ⟨some ⟨500, "\x7b\"error\":\"boom\"\x7d"⟩, none⟩) putPassword
    ⟨500, "\x7b\"error\":\"boom\"\x7d"⟩ "boom" rfl (by decide) (by decide) rfl,
    by decide, by decide, rfl, DoSendRequest_server_error jsonDecode
    (cannedClient ⟨some ⟨404, "\x7b\"error\":\"\"\x7d"⟩, none⟩) deleteSecret
    ⟨404, "\x7b\"error\":\"\"\x7d"⟩ "" rfl (by decide) (by decide) rfl⟩

/-- C5 as stated fails: for a 500 response with the body `something-invalid`,
the error returned is the decoder's syntax error itself, with nothing around
it; and for a 500 response with an empty body it is `io.EOF`, whose dynamic type
is that of the `errors.New(msg)` returned for an error envelope. -/
theorem DoSendRequest_decode_error_counterexample :
    jsonDecode "something-invalid" { Error := "" } =
      .error (.SyntaxError 's' "looking for beginning of value") ∧
    (DoSendRequest jsonDecode (cannedClient ⟨some ⟨500, "something-invalid"⟩, none⟩)
      putPassword).outcome =
      .returned none (some (.decode (.SyntaxError 's' "looking for beginning of value"))) ∧
    (¬ ∃ err : GoError,
      (DoSendRequest jsonDecode (cannedClient ⟨some ⟨500, "something-invalid"⟩, none⟩)
        putPassword).outcome = .returned none (some err) ∧
      err ≠ .decode (.SyntaxError 's' "looking for beginning of value")) ∧
    (∃ err : GoError,
      (DoSendRequest jsonDecode (cannedClient ⟨some ⟨500, ""⟩, none⟩)
        putPassword).outcome = .returned none (some err) ∧
      err = .decode .EOF ∧
      ∀ msg, err.dynamicType = (GoError.errorString msg).dynamicType) := by
  refine ⟨rfl, by decide, ?_, ⟨.decode .EOF, by decide, rfl, fun _ => rfl⟩⟩
  rintro ⟨err, hOut, hNe⟩
  have hIs : (DoSendRequest jsonDecode (cannedClient ⟨some ⟨500, "something-invalid"⟩, none⟩)
      putPassword).outcome =
      .returned none (some (.decode (.SyntaxError 's' "looking for beginning of value"))) := by
    decide
  rw [hIs] at hOut
  injection hOut with _ hErr
  injection hErr with hErr
  exact hNe hErr.symm

/-- C5, as amended, at the unset status 0 and an empty body. -/
theorem DoSendRequest_decode_error_witness :
    ((0 : Int) < 200 ∨ (0 : Int) > 299) ∧ (0 : Int) ≠ 401 ∧
    jsonDecode "" { Error := "" } = .error .EOF ∧
    (DoSendRequest jsonDecode (cannedClient ⟨some ⟨0, ""⟩, none⟩) putPassword).outcome =
      .returned none (some (.decode .EOF)) :=
  ⟨by decide, by decide, rfl, (DoSendRequest_decode_error jsonDecode
    (cannedClient ⟨some ⟨0, ""⟩, none⟩) putPassword ⟨0, ""⟩ .EOF rfl (by decide) (by decide)
    rfl).1⟩

/-- C6 at the response of the tests whose body cannot be unmarshalled (unset
status 0, body `something-invalid`). -/
theorem DoSendRequest_non2xx_is_error_witness :
    ((0 : Int) < 200 ∨ (0 : Int) > 299) ∧
    ∃ err : GoError,
      (DoSendRequest jsonDecode (cannedClient ⟨some ⟨0, "something-invalid"⟩, none⟩)
        putPassword).outcome = .returned none (some err) :=
  ⟨by decide, DoSendRequest_non2xx_is_error jsonDecode
    (cannedClient ⟨some ⟨0, "something-invalid"⟩, none⟩) putPassword ⟨0, "something-invalid"⟩
    rfl (by decide)⟩

/-- C7 as stated fails: a client that answers the first attempt with 401 and
would answer the second with 200 gets `UnauthorizedError` after one call of
`Do`, not the 200 response. -/
theorem DoSendRequest_retry_counterexample :
    (scriptedClient ⟨some ⟨401, "\x7b\"error\":\"token expired\"\x7d"⟩, none⟩
      ⟨some ⟨200, passwordBody⟩, none⟩).answers 0 putPassword =
      ⟨some ⟨401, "\x7b\"error\":\"token expired\"\x7d"⟩, none⟩ ∧
    (scriptedClient ⟨some ⟨401, "\x7b\"error\":\"token expired\"\x7d"⟩, none⟩
      ⟨some ⟨200, passwordBody⟩, none⟩).answers 1 putPassword =
      ⟨some ⟨200, passwordBody⟩, none⟩ ∧
    (DoSendRequest jsonDecode
      (scriptedClient ⟨some ⟨401, "\x7b\"error\":\"token expired\"\x7d"⟩, none⟩
        ⟨some ⟨200, passwordBody⟩, none⟩) putPassword).outcome =
      .returned none (some .UnauthorizedError) ∧
    (DoSendRequest jsonDecode
      (scriptedClient ⟨some ⟨401, "\x7b\"error\":\"token expired\"\x7d"⟩, none⟩
        ⟨some ⟨200, passwordBody⟩, none⟩) putPassword).outcome ≠
      .returned (some ⟨200, passwordBody⟩) none ∧
    (DoSendRequest jsonDecode
      (scriptedClient ⟨some ⟨401, "\x7b\"error\":\"token expired\"\x7d"⟩, none⟩
        ⟨some ⟨200, passwordBody⟩, none⟩) putPassword).httpClient.calls = 1 := by
  refine ⟨rfl, rfl, by decide, by decide, rfl⟩

/-- C7, as amended, at the client that answers 401 first and 200 afterwards. -/
theorem DoSendRequest_single_attempt_witness :
    (401 : Int) = 401 ∧
    jsonDecode "\x7b\"error\":\"token expired\"\x7d" { Error := "" } =
      .ok { Error := "token expired" } ∧
    (DoSendRequest jsonDecode
      (scriptedClient ⟨some ⟨401, "\x7b\"error\":\"token expired\"\x7d"⟩, none⟩
        ⟨some ⟨200, passwordBody⟩, none⟩) putPassword).outcome =
      .returned none (some .UnauthorizedError) ∧
    (DoSendRequest jsonDecode
      (scriptedClient ⟨some ⟨401, "\x7b\"error\":\"token expired\"\x7d"⟩, none⟩
        ⟨some ⟨200, passwordBody⟩, none⟩) putPassword).httpClient.calls = 0 + 1 :=
  ⟨rfl, rfl,
    (DoSendRequest_single_attempt jsonDecode
      (scriptedClient ⟨some ⟨401, "\x7b\"error\":\"token expired\"\x7d"⟩, none⟩
        ⟨some ⟨200, passwordBody⟩, none⟩) putPassword
      ⟨401, "\x7b\"error\":\"token expired\"\x7d"⟩ ⟨"token expired"⟩ rfl rfl rfl).1,
    (DoSendRequest_single_attempt jsonDecode
      (scriptedClient ⟨some ⟨401, "\x7b\"error\":\"token expired\"\x7d"⟩, none⟩
        ⟨some ⟨200, passwordBody⟩, none⟩) putPassword
      ⟨401, "\x7b\"error\":\"token expired\"\x7d"⟩ ⟨"token expired"⟩ rfl rfl rfl).2.1⟩

/-- C8 as stated fails: a client that answers every attempt with a 401 response
of body `something-invalid` is called once, and the call ends with the decoder's
syntax error, not with `UnauthorizedError`. -/
theorem DoSendRequest_no_retry_counterexample :
    (∀ attempt, (cannedClient ⟨some ⟨401, "something-invalid"⟩, none⟩).answers attempt
      putPassword = ⟨some ⟨401, "something-invalid"⟩, none⟩) ∧
    (DoSendRequest jsonDecode (cannedClient ⟨some ⟨401, "something-invalid"⟩, none⟩)
      putPassword).httpClient.calls = 1 ∧
    (DoSendRequest jsonDecode (cannedClient ⟨some ⟨401, "something-invalid"⟩, none⟩)
      putPassword).outcome =
      .returned none (some (.decode (.SyntaxError 's' "looking for beginning of value"))) ∧
    (DoSendRequest jsonDecode (cannedClient ⟨some ⟨401, "something-invalid"⟩, none⟩)
      putPassword).outcome ≠ .returned none (some .UnauthorizedError) := by
  refine ⟨fun _ => rfl, rfl, by decide, by decide⟩

/-- C8, as amended, at a client that answers every attempt with a 401 response
carrying an error envelope. -/
theorem DoSendRequest_no_retry_witness :
    (∀ attempt, (cannedClient ⟨some ⟨401, "\x7b\"error\":\"token expired\"\x7d"⟩,
      none⟩).answers attempt putPassword =
      ⟨some ⟨401, "\x7b\"error\":\"token expired\"\x7d"⟩, none⟩) ∧
    (401 : Int) = 401 ∧
    jsonDecode "\x7b\"error\":\"token expired\"\x7d" { Error := "" } =
      .ok { Error := "token expired" } ∧
    (DoSendRequest jsonDecode
      (cannedClient ⟨some ⟨401, "\x7b\"error\":\"token expired\"\x7d"⟩, none⟩)
      putPassword).httpClient.calls ≤ 0 + 2 ∧
    (DoSendRequest jsonDecode
      (cannedClient ⟨some ⟨401, "\x7b\"error\":\"token expired\"\x7d"⟩, none⟩)
      putPassword).outcome = .returned none (some .UnauthorizedError) :=
  ⟨fun _ => rfl, rfl, rfl,
    (DoSendRequest_no_retry jsonDecode
      (cannedClient ⟨some ⟨401, "\x7b\"error\":\"token expired\"\x7d"⟩, none⟩)
      putPassword).2.2.1,
    (DoSendRequest_no_retry jsonDecode
      (cannedClient ⟨some ⟨401, "\x7b\"error\":\"token expired\"\x7d"⟩, none⟩)
      putPassword).2.2.2.2 ⟨401, "\x7b\"error\":\"token expired\"\x7d"⟩ ⟨"token expired"⟩
      (fun _ => rfl) rfl rfl⟩

/-- C9 at a completed 404 response with an error envelope: an error and no
response. -/
theorem DoSendRequest_exactly_one_witness :
    (((cannedClient ⟨some ⟨404, "\x7b\"error\":\"not found\"\x7d"⟩, none⟩).Do
        putPassword).1.err ≠ none ∨
      ((cannedClient ⟨some ⟨404, "\x7b\"error\":\"not found\"\x7d"⟩, none⟩).Do
        putPassword).1.response ≠ none) ∧
    ∃ (response : Option Response) (err : Option GoError),
      (DoSendRequest jsonDecode
        (cannedClient ⟨some ⟨404, "\x7b\"error\":\"not found\"\x7d"⟩, none⟩)
        putPassword).outcome = .returned response err ∧
      (response = none ↔ err ≠ none) ∧
      (response ≠ none ↔
        (((cannedClient ⟨some ⟨404, "\x7b\"error\":\"not found\"\x7d"⟩, none⟩).Do
            putPassword).1.err = none ∧
          ∃ r, ((cannedClient ⟨some ⟨404, "\x7b\"error\":\"not found\"\x7d"⟩, none⟩).Do
            putPassword).1.response = some r ∧ 200 ≤ r.StatusCode ∧ r.StatusCode ≤ 299)) :=
  ⟨Or.inr (by decide), DoSendRequest_exactly_one jsonDecode
    (cannedClient ⟨some ⟨404, "\x7b\"error\":\"not found\"\x7d"⟩, none⟩) putPassword
    (Or.inr (by decide))⟩

/-- C10 at a failing action, where `Execute` returns the action's error and
prints nothing, and at a successful one, where it returns nil and prints the
line; the action is given the request built for the identifier together with the
identifier. -/
theorem DeleteCommand.Execute_surfaces_error_witness :
    (dummyCollaborators (some (.errorString "not found"))).DoAction "https://example.com"
      ⟨"DELETE", "https://example.com/api/v1/data?name=/example-password", ""⟩
      "/example-password" ⟨[], []⟩ =
      (("", some (.errorString "not found")),
        ⟨[], [(⟨"DELETE", "https://example.com/api/v1/data?name=/example-password", ""⟩,
          "/example-password")]⟩) ∧
    (DeleteCommand.Execute (dummyCollaborators (some (.errorString "not found")))
      ⟨"/example-password"⟩ [] ⟨[], []⟩).1 = some (.errorString "not found") ∧
    (DeleteCommand.Execute (dummyCollaborators (some (.errorString "not found")))
      ⟨"/example-password"⟩ [] ⟨[], []⟩).2.stdout = [] ∧
    (DeleteCommand.Execute (dummyCollaborators none)
      ⟨"/example-password"⟩ [] ⟨[], []⟩).1 = none ∧
    (DeleteCommand.Execute (dummyCollaborators none)
      ⟨"/example-password"⟩ [] ⟨[], []⟩).2.stdout = ["Secret successfully deleted\n"] :=
  ⟨rfl,
    (DeleteCommand.Execute_surfaces_error (dummyCollaborators (some (.errorString "not found")))
      ⟨"/example-password"⟩ [] ⟨[], []⟩ ⟨[], []⟩ ⟨[], []⟩ ⟨[], []⟩ ⟨[], []⟩ ⟨[], []⟩
      ⟨[], [(⟨"DELETE", "https://example.com/api/v1/data?name=/example-password", ""⟩,
        "/example-password")]⟩
      "https://example.com" "https://example.com" "https://example.com" "https://example.com"
      ⟨"DELETE", "https://example.com/api/v1/data?name=/example-password", ""⟩ ""
      (some (.errorString "not found")) rfl rfl rfl rfl rfl rfl).1,
    congrArg World.stdout
      ((DeleteCommand.Execute_surfaces_error
        (dummyCollaborators (some (.errorString "not found")))
        ⟨"/example-password"⟩ [] ⟨[], []⟩ ⟨[], []⟩ ⟨[], []⟩ ⟨[], []⟩ ⟨[], []⟩ ⟨[], []⟩
        ⟨[], [(⟨"DELETE", "https://example.com/api/v1/data?name=/example-password", ""⟩,
          "/example-password")]⟩
        "https://example.com" "https://example.com" "https://example.com" "https://example.com"
        ⟨"DELETE", "https://example.com/api/v1/data?name=/example-password", ""⟩ ""
        (some (.errorString "not found")) rfl rfl rfl rfl rfl rfl).2.2.2 (by simp)),
    (DeleteCommand.Execute_surfaces_error (dummyCollaborators none)
      ⟨"/example-password"⟩ [] ⟨[], []⟩ ⟨[], []⟩ ⟨[], []⟩ ⟨[], []⟩ ⟨[], []⟩ ⟨[], []⟩
      ⟨[], [(⟨"DELETE", "https://example.com/api/v1/data?name=/example-password", ""⟩,
        "/example-password")]⟩
      "https://example.com" "https://example.com" "https://example.com" "https://example.com"
      ⟨"DELETE", "https://example.com/api/v1/data?name=/example-password", ""⟩ ""
      none rfl rfl rfl rfl rfl rfl).1,
    congrArg World.stdout
      ((DeleteCommand.Execute_surfaces_error (dummyCollaborators none)
        ⟨"/example-password"⟩ [] ⟨[], []⟩ ⟨[], []⟩ ⟨[], []⟩ ⟨[], []⟩ ⟨[], []⟩ ⟨[], []⟩
        ⟨[], [(⟨"DELETE", "https://example.com/api/v1/data?name=/example-password", ""⟩,
          "/example-password")]⟩
        "https://example.com" "https://example.com" "https://example.com" "https://example.com"
        ⟨"DELETE", "https://example.com/api/v1/data?name=/example-password", ""⟩ ""
        none rfl rfl rfl rfl rfl rfl).2.2.1 rfl)⟩

end CredhubCli
